import Mathlib

/-!
Verification of the fault-injection orchestrator
(`ConfigFileFaultController.py`): a shallow embedding of the identifier
resolver, the fault-spec builder, the controller/injector handshake state
machine, and the tuple transfer encoding, together with theorems checking
the natural-language specification against the code.
-/

namespace ConfigFileFault

/-! ### Identifier strings and their parsing

The source matches identifier strings against the two anchored regexes
`^(\w*)->(\w*)$` and `^(\w*)->(\w*):(\w*)$` (in that order), falling back
to treating the whole string as a bare node name.  `\w` is modelled over
the ASCII fragment `[A-Za-z0-9_]`. -/

def isWordChar (c : Char) : Bool :=
  c.isAlphanum || c = '_'

/-- Longest prefix of word characters, together with the remainder
(the behaviour of the anchored greedy `(\w*)` group). -/
def spanWord : List Char → List Char × List Char
  | [] => ([], [])
  | c :: cs =>
    if isWordChar c then
      let (w, r) := spanWord cs
      (c :: w, r)
    else ([], c :: cs)

/-- Match of `^(\w*)->(\w*)$` against a character list. -/
def matchImplicitLink (cs : List Char) : Option (List Char × List Char) :=
  match spanWord cs with
  | (a, '-' :: '>' :: rest) =>
    if rest.all isWordChar then some (a, rest) else none
  | _ => none

/-- Match of `^(\w*)->(\w*):(\w*)$` against a character list. -/
def matchExplicitLink (cs : List Char) : Option (List Char × List Char × List Char) :=
  match spanWord cs with
  | (a, '-' :: '>' :: rest) =>
    match spanWord rest with
    | (b, ':' :: iface) =>
      if iface.all isWordChar then some (a, b, iface) else none
    | _ => none
  | _ => none

/-- The branch structure at the top of
`_get_node_and_interface_name_from_identifier_string`: try the implicit
link pattern, then the explicit one, and otherwise treat the string as a
bare node name.  Returns `(nodename_a, nodename_b, explicit_name)`. -/
def parseIdentifier (s : String) : String × Option String × Option String :=
  match matchImplicitLink s.data with
  | some (a, b) => (String.mk a, some (String.mk b), none)
  | none =>
    match matchExplicitLink s.data with
    | some (a, b, i) => (String.mk a, some (String.mk b), some (String.mk i))
    | none => (s, none, none)

/-! ### Topology model

The topology provider (Mininet) is consumed through hosts (name, pid) and
links, each link joining two `(interface name, node)` endpoints. -/

structure MNode where
  name : String
  pid : Int
deriving DecidableEq, Repr

structure Intf where
  name : String
  node : MNode
deriving DecidableEq, Repr

structure Link where
  intf1 : Intf
  intf2 : Intf
deriving DecidableEq, Repr

structure Mininet where
  hosts : List MNode
  links : List Link
deriving DecidableEq, Repr

/-- Python truthiness of the optional `explicit_name` string: `None` and
`""` are falsy. -/
def isTruthy : Option String → Bool
  | none => false
  | some s => s ≠ ""

/-- The `for link in net.links` loop of
`_get_node_and_interface_name_from_identifier_string`, with the running
candidate `(corresponding_interface_name, corresponding_host)` threaded
through; `break` is modelled by returning without consuming the rest of
the list. -/
def scanLinks (a : String) (b expl : Option String) :
    List Link → Option String × Option MNode → Option String × Option MNode
  | [], cand => cand
  | l :: ls, cand =>
    if l.intf1.node.name = a ∧ some l.intf2.node.name = b then
      if isTruthy expl then
        if expl = some l.intf1.name then (some l.intf1.name, some l.intf1.node)
        else scanLinks a b expl ls (none, none)
      else scanLinks a b expl ls (some l.intf1.name, some l.intf1.node)
    else if some l.intf1.node.name = b ∧ l.intf2.node.name = a then
      if isTruthy expl then
        if expl = some l.intf2.name then (some l.intf2.name, some l.intf2.node)
        else scanLinks a b expl ls (none, none)
      else scanLinks a b expl ls (some l.intf2.name, some l.intf2.node)
    else scanLinks a b expl ls cand

/-- The final `if corresponding_interface_name is None: ... return None, None`
check after the link scan. -/
def afterScan (cand : Option String × Option MNode) : Option String × Option MNode :=
  if cand.1 = none then (none, none) else cand

/-- Body of `_get_node_and_interface_name_from_identifier_string` after
parsing: host-set lookup for bare names (with fall-through into the link
scan when no host matches, exactly as in the source), link scan otherwise. -/
def get_node_and_interface_name_core (net : Mininet) (a : String)
    (b expl : Option String) : Option String × Option MNode :=
  match b, net.hosts.find? (fun node => node.name = a) with
  | none, some node => (none, some node)
  | _, _ => afterScan (scanLinks a b expl net.links (none, none))

/-- `_get_node_and_interface_name_from_identifier_string`: `None` input
short-circuits; otherwise parse and resolve. -/
def get_node_and_interface_name_from_identifier_string (net : Mininet)
    (identifier_string : Option String) : Option String × Option MNode :=
  match identifier_string with
  | none => (none, none)
  | some s =>
    let (a, b, expl) := parseIdentifier s
    get_node_and_interface_name_core net a b expl

/-- `_get_passable_identifiers_from_node_and_interface_name`. -/
def get_passable_identifiers_from_node_and_interface_name
    (corresponding_interface_name : Option String)
    (corresponding_node : Option MNode) : Option Int × Option String :=
  match corresponding_node with
  | none => (none, none)
  | some node => (some node.pid, corresponding_interface_name)

/-- `_get_mininet_agnostic_identifiers_from_identifier_string`: the full
resolution pipeline producing `(process_group_id, interface_name,
identifier_string)`. -/
def get_mininet_agnostic_identifiers_from_identifier_string (net : Mininet)
    (identifier_string : String) : Option Int × Option String × String :=
  let (iname, host) :=
    get_node_and_interface_name_from_identifier_string net (some identifier_string)
  let (pgid, iname2) :=
    get_passable_identifiers_from_node_and_interface_name iname host
  (pgid, iname2, identifier_string)

/-! ### Message vocabulary of the control channel -/

def MESSAGE_SETUP_DONE : String := "m_faultinjector_ready"
def MESSAGE_SETUP_ERROR : String := "m_faultinjector_setuperror"
def MESSAGE_START_INJECTING : String := "m_faultinjector_go"
def MESSAGE_INJECTION_DONE : String := "m_faultinjector_done"
def MESSAGE_WRITE_LOGS : String := "m_write_logs"

/-! ### Controller-side state machine

`ConfigFileFaultControllerStarter` is modelled by the state its `go` and
`is_active` methods read and write: the `faults_are_active` flag, the
FIFO contents of the injector→controller pipe it receives from, and the
contents of the controller→injector pipe it sends on.  `poll()` is the
emptiness test of the receive FIFO and `recv_bytes()` pops its head. -/

structure ConfigFileFaultControllerStarter where
  faults_are_active : Bool
  recv_pipe_faults_to_mininet : List String
  send_pipe_mininet_to_faults : List String
deriving DecidableEq, Repr

/-- The starter's `__init__` sets `faults_are_active = False` (line 30). -/
def ConfigFileFaultControllerStarter.init (received : List String) : ConfigFileFaultControllerStarter :=
  { faults_are_active := false
    recv_pipe_faults_to_mininet := received
    send_pipe_mininet_to_faults := [] }

/-- `ConfigFileFaultControllerStarter.go`: set the active flag and send
the start-injecting sentinel. -/
def ConfigFileFaultControllerStarter.go (s : ConfigFileFaultControllerStarter) : ConfigFileFaultControllerStarter :=
  { s with
    faults_are_active := true
    send_pipe_mininet_to_faults :=
      s.send_pipe_mininet_to_faults ++ [MESSAGE_START_INJECTING] }

/-- `ConfigFileFaultControllerStarter.is_active`: early-out when inactive;
non-blocking `poll` (emptiness test) leaving the pipe untouched when no
message is pending; otherwise `recv` the head and flip the flag exactly
when it is the done sentinel. -/
def ConfigFileFaultControllerStarter.is_active (s : ConfigFileFaultControllerStarter) : Bool × ConfigFileFaultControllerStarter :=
  if s.faults_are_active = false then (false, s)
  else
    match s.recv_pipe_faults_to_mininet with
    | [] => (true, s)
    | msg :: rest =>
      if msg = MESSAGE_INJECTION_DONE then
        (false, { s with faults_are_active := false,
                         recv_pipe_faults_to_mininet := rest })
      else (true, { s with recv_pipe_faults_to_mininet := rest })

/-- Outcomes of `n` successive `is_active` calls. -/
def ConfigFileFaultControllerStarter.is_active_iter (s : ConfigFileFaultControllerStarter) : Nat → List Bool
  | 0 => []
  | n + 1 =>
    let (b, s') := s.is_active
    b :: s'.is_active_iter n

/-! ### The injector's `go()` coroutine as an event trace

`ConfigFileFaultController.go` is a straight-line async function; its
observable step sequence is embedded as a list of events parameterised by
whether a fault logger is configured (`self.fault_logger is not None`). -/

inductive GoEvent where
  | scheduleLogTask
  | scheduleLogListener
  | joinFaultTasks
  | sendDone
  | stopLogger
  | awaitLogTask
  | awaitLogListener
deriving DecidableEq, Repr

/-- The event trace of `ConfigFileFaultController.go`: optional logger
fan-out, the `asyncio.gather` fan-in join over all fault coroutines, the
done message, then (logger only) logger stop and the two awaits. -/
def goTrace (hasLogger : Bool) : List GoEvent :=
  (if hasLogger then [GoEvent.scheduleLogTask, GoEvent.scheduleLogListener] else [])
    ++ [GoEvent.joinFaultTasks, GoEvent.sendDone]
    ++ (if hasLogger then
          [GoEvent.stopLogger, GoEvent.awaitLogTask, GoEvent.awaitLogListener]
        else [])

/-! ### Traffic-filter extraction (`_get_target_arguments_from_fault_dict`) -/

structure TrafficDict where
  protocol : Option String
  src_port : Option Int
  dst_port : Option Int
deriving DecidableEq, Repr

/-- The protocol whitelist of `_get_target_arguments_from_fault_dict`. -/
def allowedProtocols : List String :=
  ["ICMP", "IGMP", "IP", "TCP", "UDP", "IPv6", "IPv6-ICMP", "any"]

/-- `_get_target_arguments_from_fault_dict`, returning
`(fault_target_protocol, src_port, dst_port)` plus a flag recording
whether the unknown-protocol error was logged. -/
def get_target_arguments_from_fault_dict (target_traffic : Option TrafficDict) :
    (String × Option Int × Option Int) × Bool :=
  match target_traffic with
  | some traffic_object =>
    let fault_target_protocol := traffic_object.protocol.getD "any"
    if fault_target_protocol ∈ allowedProtocols then
      ((fault_target_protocol, traffic_object.src_port, traffic_object.dst_port), false)
    else
      (("any", traffic_object.src_port, traffic_object.dst_port), true)
  | none => (("any", none, none), false)

/-! ### Fault entries and `_configByFile`

A fault entry's inner dictionary, with its identifiers already in the
transferred triple form `(process pid, interface name, original ref)`
that `literal_eval` recovers from the repr-encoded strings (the encoding
itself is verified separately below). -/

structure FaultEntryDict where
  type_val : Option String
  identifiers : List (Option Int × Option String × String)
  tag : Option String
  type_args : Option (List String)
  pattern : Option String
  pattern_args : Option (List String)
  pre_injection_time : Option Int
  injection_time : Option Int
  post_injection_time : Option Int
  target_traffic : Option TrafficDict
deriving Repr

/-- Strip a literal character prefix. -/
def stripLiteral : List Char → List Char → Option (List Char)
  | [], s => some s
  | _ :: _, [] => none
  | p :: ps, c :: cs => if c = p then stripLiteral ps cs else none

/-- Match of the anchored `^<literal>(\w*)$` regexes
(`link_fault_regex` / `node_fault_regex`), returning the captured kind. -/
def matchTypeRegex (lit : String) (s : String) : Option String :=
  match stripLiteral lit.data s.data with
  | some rest => if rest.all isWordChar then some (String.mk rest) else none
  | none => none

/-- The constructed fault units, mirroring the keyword arguments passed to
`LinkInjector` / `NodeInjector` in `_configByFile`. -/
inductive Injector where
  | link (target_interface : Option String) (target_namespace_pid : Option Int)
      (tag : String)
      (fault_target_protocol : String)
      (fault_target_dst_ports fault_target_src_ports : Option Int)
      (fault_type : String) (fault_pattern : String)
      (fault_args fault_pattern_args : Option (List String))
      (pre_injection_time injection_time post_injection_time : Option Int)
  | node (target_process_pid : Option Int) (fault_type : String) (tag : String)
      (pre_injection_time injection_time post_injection_time : Option Int)
      (fault_pattern : String)
      (fault_args fault_pattern_args : Option (List String))
deriving DecidableEq, Repr

/-- The tag given to a constructed fault unit. -/
def Injector.tag : Injector → String
  | .link _ _ tag _ _ _ _ _ _ _ _ _ _ => tag
  | .node _ _ tag _ _ _ _ _ _ => tag

/-- The protocol handed to a `LinkInjector` (`none` for node injectors). -/
def Injector.protocol : Injector → Option String
  | .link _ _ _ p _ _ _ _ _ _ _ _ _ => some p
  | .node _ _ _ _ _ _ _ _ _ => none

/-- The body of `_configByFile`'s per-entry loop: extract the traffic
filter, default the tag to a fresh token (`uuid.uuid4()` is modelled by
the `freshTag` argument) and the pattern to `"persistent"`, then expand
one injector per identifier when the type string matches the link- or
node-fault regex, and none otherwise (missing or unknown types are
logged and skipped). -/
def faultsFromEntry (freshTag : String) (d : FaultEntryDict) : List Injector :=
  let targs := (get_target_arguments_from_fault_dict d.target_traffic).1
  let tag := d.tag.getD freshTag
  let fault_pattern := d.pattern.getD "persistent"
  match d.type_val with
  | none => []
  | some fault_type_value =>
    match matchTypeRegex "link_fault:" fault_type_value with
    | some fault_type =>
      d.identifiers.map fun idt =>
        Injector.link idt.2.1 idt.1 (tag ++ "@" ++ idt.2.2)
          targs.1 targs.2.2 targs.2.1
          fault_type fault_pattern d.type_args d.pattern_args
          d.pre_injection_time d.injection_time d.post_injection_time
    | none =>
      match matchTypeRegex "node_fault:" fault_type_value with
      | some fault_type =>
        d.identifiers.map fun idt =>
          Injector.node idt.1 fault_type (tag ++ "@" ++ idt.2.2)
            d.pre_injection_time d.injection_time d.post_injection_time
            fault_pattern d.type_args d.pattern_args
      | none => []

/-- `_configByFile` over the whole `faults` list, drawing one fresh tag
token per entry. -/
def configByFile (fresh : Nat → String) (entries : List FaultEntryDict) : List Injector :=
  (entries.enum).flatMap fun p => faultsFromEntry (fresh p.1) p.2

/-! ### The transfer encoding of resolved identifiers

`_build_yml_with_mininet_agnostic_identifiers` serialises each resolved
triple with Python's `repr` of the tuple, and `_configByFile` recovers it
with `ast.literal_eval`.  Both sides are embedded below.  CPython's `repr`
of a string consults the Unicode printability table; that table enters the
model as the parameter `printable` (CPython escapes backslash, the chosen
quote, `\n`, `\r`, `\t` unconditionally and hex-escapes every
non-printable character, which is exactly the structure embedded here, so
instantiating `printable` with CPython's table yields CPython's output). -/

inductive PyVal where
  | pyNone
  | pyInt (i : Int)
  | pyStr (s : List Char)
deriving DecidableEq, Repr

def digitChar : Nat → Char
  | 0 => '0' | 1 => '1' | 2 => '2' | 3 => '3' | 4 => '4'
  | 5 => '5' | 6 => '6' | 7 => '7' | 8 => '8' | _ => '9'

def hexDigitChar : Nat → Char
  | 0 => '0' | 1 => '1' | 2 => '2' | 3 => '3' | 4 => '4'
  | 5 => '5' | 6 => '6' | 7 => '7' | 8 => '8' | 9 => '9'
  | 10 => 'a' | 11 => 'b' | 12 => 'c' | 13 => 'd' | 14 => 'e' | _ => 'f'

/-- Decimal digits of a natural number, most significant first
(Python's `repr` of a non-negative `int`). -/
def natDigits (n : Nat) : List Char :=
  if n < 10 then [digitChar n]
  else natDigits (n / 10) ++ [digitChar (n % 10)]
decreasing_by exact Nat.div_lt_self (by omega) (by omega)

/-- Python's `repr` of an `int`. -/
def reprInt (i : Int) : List Char :=
  if i < 0 then '-' :: natDigits (-i).toNat else natDigits i.toNat

/-- Fixed-width big-endian lowercase hex digits (`\xhh`, `\uhhhh`,
`\Uhhhhhhhh` payloads). -/
def hexDigitsBE : Nat → Nat → List Char
  | 0, _ => []
  | k + 1, n => hexDigitChar (n / 16 ^ k) :: hexDigitsBE k (n % 16 ^ k)

/-- CPython `repr` escaping of one character inside a `q`-quoted string
literal. -/
def escChar (printable : Char → Bool) (q c : Char) : List Char :=
  if c = '\\' then ['\\', '\\']
  else if c = q then ['\\', q]
  else if c = '\n' then ['\\', 'n']
  else if c = '\r' then ['\\', 'r']
  else if c = '\t' then ['\\', 't']
  else if printable c then [c]
  else if c.toNat < 256 then '\\' :: 'x' :: hexDigitsBE 2 c.toNat
  else if c.toNat < 65536 then '\\' :: 'u' :: hexDigitsBE 4 c.toNat
  else '\\' :: 'U' :: hexDigitsBE 8 c.toNat

/-- CPython's quote choice: single quotes unless the string contains a
single quote but no double quote. -/
def pyQuote (s : List Char) : Char :=
  if '\'' ∈ s ∧ ¬ '"' ∈ s then '"' else '\''

def escapeChars (printable : Char → Bool) (q : Char) : List Char → List Char
  | [] => []
  | c :: cs => escChar printable q c ++ escapeChars printable q cs

/-- CPython's `repr` of a string. -/
def reprStr (printable : Char → Bool) (s : List Char) : List Char :=
  pyQuote s :: escapeChars printable (pyQuote s) s ++ [pyQuote s]

def reprPyVal (printable : Char → Bool) : PyVal → List Char
  | .pyNone => "None".data
  | .pyInt i => reprInt i
  | .pyStr s => reprStr printable s

/-- Python's `repr` of a 3-tuple: `(x, y, z)`. -/
def reprTuple3 (printable : Char → Bool) (t : PyVal × PyVal × PyVal) : List Char :=
  '(' :: (reprPyVal printable t.1 ++ ',' :: ' ' ::
    (reprPyVal printable t.2.1 ++ ',' :: ' ' ::
      (reprPyVal printable t.2.2 ++ [')'])))

def pyOfOptInt : Option Int → PyVal
  | none => .pyNone
  | some i => .pyInt i

def pyOfOptStr : Option String → PyVal
  | none => .pyNone
  | some s => .pyStr s.data

/-- Line 96 of the source: `repr(node_identifying_tuple)` for a resolved
`(process_group_id, interface_name, identifier_string)` triple. -/
def reprIdentifierTuple (printable : Char → Bool)
    (t : Option Int × Option String × String) : List Char :=
  reprTuple3 printable (pyOfOptInt t.1, pyOfOptStr t.2.1, .pyStr t.2.2.data)

/-! The `literal_eval` side: a parser for exactly the literals `repr`
emits (`None`, decimal integers, quoted strings, and the 3-tuple). -/

def hexVal? (c : Char) : Option Nat :=
  if '0' ≤ c ∧ c ≤ '9' then some (c.toNat - 48)
  else if 'a' ≤ c ∧ c ≤ 'f' then some (c.toNat - 87)
  else if 'A' ≤ c ∧ c ≤ 'F' then some (c.toNat - 55)
  else none

/-- Read exactly `k` hex digits, most significant first. -/
def readHex : Nat → List Char → Option (Nat × List Char)
  | 0, cs => some (0, cs)
  | _ + 1, [] => none
  | k + 1, c :: cs =>
    match hexVal? c with
    | none => none
    | some d =>
      match readHex k cs with
      | none => none
      | some (n, rest) => some (d * 16 ^ k + n, rest)

/-- Decode one backslash escape (the input starts right after the
backslash). -/
def parseEscape : List Char → Option (Char × List Char)
  | [] => none
  | e :: cs =>
    if e = '\\' then some ('\\', cs)
    else if e = '\'' then some ('\'', cs)
    else if e = '"' then some ('"', cs)
    else if e = 'n' then some ('\n', cs)
    else if e = 'r' then some ('\r', cs)
    else if e = 't' then some ('\t', cs)
    else if e = 'x' then (readHex 2 cs).map fun p => (Char.ofNat p.1, p.2)
    else if e = 'u' then (readHex 4 cs).map fun p => (Char.ofNat p.1, p.2)
    else if e = 'U' then (readHex 8 cs).map fun p => (Char.ofNat p.1, p.2)
    else none

theorem readHex_length {k : Nat} {cs rest : List Char} {n : Nat}
    (h : readHex k cs = some (n, rest)) : rest.length ≤ cs.length := by
  induction k generalizing cs rest n with
  | zero =>
    simp only [readHex, Option.some.injEq, Prod.mk.injEq] at h
    rw [← h.2]
  | succ k ih =>
    cases cs with
    | nil => simp [readHex] at h
    | cons c cs' =>
      simp only [readHex] at h
      cases hv : hexVal? c with
      | none => rw [hv] at h; exact absurd h (by simp)
      | some d =>
        rw [hv] at h
        cases hr : readHex k cs' with
        | none => rw [hr] at h; exact absurd h (by simp)
        | some p =>
          obtain ⟨n', rest'⟩ := p
          rw [hr] at h
          simp only [Option.some.injEq, Prod.mk.injEq] at h
          have hle := ih hr
          rw [← h.2]
          simpa using Nat.le_succ_of_le hle

theorem parseEscape_length {cs rest : List Char} {c : Char}
    (h : parseEscape cs = some (c, rest)) : rest.length < cs.length := by
  cases cs with
  | nil => simp [parseEscape] at h
  | cons e cs' =>
    simp only [parseEscape] at h
    split_ifs at h with h1 h2 h3 h4 h5 h6 h7 h8 h9 <;>
      first
      | · simp only [Option.some.injEq, Prod.mk.injEq] at h
          rw [← h.2]; simp
      | · rw [Option.map_eq_some'] at h
          obtain ⟨p, hp, hpe⟩ := h
          obtain ⟨pn, prest⟩ := p
          have hle := readHex_length hp
          injection hpe with hc hrest
          rw [← hrest]
          simpa using Nat.lt_succ_of_le hle

/-- Parse the body of a `q`-quoted string literal up to and including the
closing quote, returning the decoded content and the remaining input. -/
def parseStrBody (q : Char) (cs : List Char) : Option (List Char × List Char) :=
  match cs with
  | [] => none
  | c :: cs' =>
    if c = q then some ([], cs')
    else if c = '\\' then
      match hesc : parseEscape cs' with
      | none => none
      | some (ch, rest) =>
        (parseStrBody q rest).map fun p => (ch :: p.1, p.2)
    else (parseStrBody q cs').map fun p => (c :: p.1, p.2)
termination_by cs.length
decreasing_by
  · exact Nat.lt_succ_of_lt (parseEscape_length hesc)
  · simp

/-- Parse a quoted string literal (either quote character). -/
def parsePyStr (cs : List Char) : Option (List Char × List Char) :=
  match cs with
  | [] => none
  | c :: cs' => if c = '\'' ∨ c = '"' then parseStrBody c cs' else none

/-- Longest prefix of decimal digits. -/
def spanDigits : List Char → List Char × List Char
  | [] => ([], [])
  | c :: cs =>
    if c.isDigit then
      let (d, r) := spanDigits cs
      (c :: d, r)
    else ([], c :: cs)

def digitsToNat (ds : List Char) : Nat :=
  ds.foldl (fun acc c => 10 * acc + (c.toNat - 48)) 0

/-- Parse a decimal integer literal with optional leading minus. -/
def parsePyInt (cs : List Char) : Option (Int × List Char) :=
  match cs with
  | [] => none
  | c :: cs' =>
    if c = '-' then
      match spanDigits cs' with
      | ([], _) => none
      | (ds, r) => some (-(digitsToNat ds : Int), r)
    else
      match spanDigits (c :: cs') with
      | ([], _) => none
      | (ds, r) => some ((digitsToNat ds : Int), r)

/-- Parse one literal item: `None`, an integer, or a quoted string. -/
def parsePyItem (cs : List Char) : Option (PyVal × List Char) :=
  match cs with
  | [] => none
  | c :: _ =>
    if c = 'N' then (stripLiteral "None".data cs).map fun r => (PyVal.pyNone, r)
    else if c = '\'' ∨ c = '"' then
      (parsePyStr cs).map fun p => (PyVal.pyStr p.1, p.2)
    else (parsePyInt cs).map fun p => (PyVal.pyInt p.1, p.2)

/-- `ast.literal_eval` restricted to the 3-tuples `repr` produces
(line 349 of the source parses exactly these strings). -/
def parsePyTuple3 (cs : List Char) : Option (PyVal × PyVal × PyVal) :=
  match cs with
  | '(' :: cs1 =>
    match parsePyItem cs1 with
    | none => none
    | some (v1, cs2) =>
      match stripLiteral ", ".data cs2 with
      | none => none
      | some cs3 =>
        match parsePyItem cs3 with
        | none => none
        | some (v2, cs4) =>
          match stripLiteral ", ".data cs4 with
          | none => none
          | some cs5 =>
            match parsePyItem cs5 with
            | none => none
            | some (v3, cs6) =>
              if cs6 = [')'] then some (v1, v2, v3) else none
  | _ => none

/-- The receiving side's use of the parsed tuple
(`identifier_tuple[0]`, `[1]`, `[2]` in `_configByFile`), typed back into
the resolved-identifier shape. -/
def decodeIdentifierTuple : PyVal × PyVal × PyVal →
    Option (Option Int × Option String × String)
  | (.pyNone, .pyNone, .pyStr r) => some (none, none, String.mk r)
  | (.pyNone, .pyStr i, .pyStr r) => some (none, some (String.mk i), String.mk r)
  | (.pyInt p, .pyNone, .pyStr r) => some (some p, none, String.mk r)
  | (.pyInt p, .pyStr i, .pyStr r) => some (some p, some (String.mk i), String.mk r)
  | _ => none

/-! ### Round-trip lemmas for the transfer encoding -/

theorem digitChar_isDigit (d : Nat) : (digitChar d).isDigit = true := by
  unfold digitChar
  split <;> rfl

theorem digitChar_val : ∀ d, d < 10 → (digitChar d).toNat - 48 = d := by decide

theorem natDigits_ne_nil (n : Nat) : natDigits n ≠ [] := by
  rw [natDigits]
  split <;> simp

theorem natDigits_all_digit (n : Nat) :
    ∀ c ∈ natDigits n, c.isDigit = true := by
  induction n using Nat.strong_induction_on with
  | _ n ih =>
    rw [natDigits]
    split
    · intro c hc
      simp only [List.mem_singleton] at hc
      subst hc
      exact digitChar_isDigit n
    · intro c hc
      rw [List.mem_append, List.mem_singleton] at hc
      rcases hc with hc | hc
      · exact ih (n / 10) (Nat.div_lt_self (by omega) (by omega)) c hc
      · subst hc
        exact digitChar_isDigit (n % 10)

theorem digitsToNat_natDigits (n : Nat) : digitsToNat (natDigits n) = n := by
  induction n using Nat.strong_induction_on with
  | _ n ih =>
    rw [natDigits]
    split
    · next h =>
      show 10 * 0 + ((digitChar n).toNat - 48) = n
      rw [Nat.mul_zero, Nat.zero_add]
      exact digitChar_val n h
    · next h =>
      rw [digitsToNat, List.foldl_append]
      have hrec : List.foldl (fun acc c => 10 * acc + (c.toNat - 48)) 0
          (natDigits (n / 10)) = n / 10 :=
        ih (n / 10) (Nat.div_lt_self (by omega) (by omega))
      rw [hrec]
      show 10 * (n / 10) + ((digitChar (n % 10)).toNat - 48) = n
      rw [digitChar_val (n % 10) (Nat.mod_lt _ (by omega))]
      omega

theorem spanDigits_append {ds rest : List Char}
    (hds : ∀ c ∈ ds, c.isDigit = true)
    (hrest : ∀ r ∈ rest.head?, r.isDigit = false) :
    spanDigits (ds ++ rest) = (ds, rest) := by
  induction ds with
  | nil =>
    cases rest with
    | nil => rfl
    | cons r rs =>
      have hr : r.isDigit = false := hrest r (by simp)
      simp [spanDigits, hr]
  | cons c cs ih =>
    have hc : c.isDigit = true := hds c (by simp)
    simp only [List.cons_append, spanDigits, hc, if_true, List.append_eq]
    rw [ih (fun x hx => hds x (by simp [hx]))]

theorem stripLiteral_append (p rest : List Char) :
    stripLiteral p (p ++ rest) = some rest := by
  induction p with
  | nil => rfl
  | cons c cs ih => simp [stripLiteral, ih]

theorem hexVal?_hexDigitChar : ∀ d, d < 16 → hexVal? (hexDigitChar d) = some d := by
  decide

theorem readHex_hexDigitsBE (k n : Nat) (rest : List Char) (h : n < 16 ^ k) :
    readHex k (hexDigitsBE k n ++ rest) = some (n, rest) := by
  induction k generalizing n with
  | zero =>
    have : n = 0 := by simpa using h
    subst this
    rfl
  | succ k ih =>
    have hdiv : n / 16 ^ k < 16 := by
      rw [Nat.div_lt_iff_lt_mul (Nat.pos_pow_of_pos k (by omega))]
      calc n < 16 ^ (k + 1) := h
        _ = 16 * 16 ^ k := by ring
    have hmod : n % 16 ^ k < 16 ^ k :=
      Nat.mod_lt _ (Nat.pos_pow_of_pos k (by omega))
    simp only [hexDigitsBE, List.cons_append, readHex, List.append_eq,
      hexVal?_hexDigitChar (n / 16 ^ k) hdiv, ih (n % 16 ^ k) hmod]
    have heq : n / 16 ^ k * 16 ^ k + n % 16 ^ k = n := by
      rw [Nat.mul_comm]
      exact Nat.div_add_mod n (16 ^ k)
    simp [heq]

theorem charToNat_lt (c : Char) : c.toNat < 4294967296 := by
  have h1 : c.val.isValidChar := c.valid
  rcases h1 with h | ⟨h1, h2⟩ <;> simp [Char.toNat] <;> omega

theorem parseStrBody_close (q : Char) (rest : List Char) :
    parseStrBody q (q :: rest) = some ([], rest) := by
  rw [parseStrBody.eq_def]
  simp

theorem parseStrBody_raw {q c : Char} (hcq : c ≠ q) (hcb : c ≠ '\\')
    (cs : List Char) :
    parseStrBody q (c :: cs) =
      (parseStrBody q cs).map fun p => (c :: p.1, p.2) := by
  rw [parseStrBody.eq_def]
  dsimp only []
  rw [if_neg hcq, if_neg hcb]

theorem parseStrBody_esc {q ch : Char} (hqb : q ≠ '\\') {cs rest : List Char}
    (hesc : parseEscape cs = some (ch, rest)) :
    parseStrBody q ('\\' :: cs) =
      (parseStrBody q rest).map fun p => (ch :: p.1, p.2) := by
  rw [parseStrBody.eq_def]
  dsimp only []
  rw [if_neg (Ne.symm hqb), if_pos rfl]
  split
  · next heq => rw [heq] at hesc; exact absurd hesc (by simp)
  · next ch' rest' heq =>
      rw [heq] at hesc
      obtain ⟨rfl, rfl⟩ : ch' = ch ∧ rest' = rest := by simpa using hesc
      rfl

theorem parseStrBody_escChar (printable : Char → Bool) {q : Char}
    (hq : q = '\'' ∨ q = '"') (c : Char) (rest : List Char) :
    parseStrBody q (escChar printable q c ++ rest) =
      (parseStrBody q rest).map fun p => (c :: p.1, p.2) := by
  have hqb : q ≠ '\\' := by rcases hq with rfl | rfl <;> decide
  unfold escChar
  split_ifs with h1 h2 h3 h4 h5 h6 h7 h8
  · subst h1
    exact parseStrBody_esc hqb (by simp [parseEscape])
  · subst h2
    apply parseStrBody_esc hqb
    rcases hq with rfl | rfl <;> simp [parseEscape]
  · subst h3
    exact parseStrBody_esc hqb (by simp [parseEscape])
  · subst h4
    exact parseStrBody_esc hqb (by simp [parseEscape])
  · subst h5
    exact parseStrBody_esc hqb (by simp [parseEscape])
  · exact parseStrBody_raw h2 h1 rest
  · apply parseStrBody_esc hqb
    simp only [parseEscape, List.cons_append]
    have hx := readHex_hexDigitsBE 2 c.toNat rest (by simpa using h7)
    simp [hx, Char.ofNat_toNat]
  · apply parseStrBody_esc hqb
    simp only [parseEscape, List.cons_append]
    have hx := readHex_hexDigitsBE 4 c.toNat rest (by simpa using h8)
    simp [hx, Char.ofNat_toNat]
  · apply parseStrBody_esc hqb
    simp only [parseEscape, List.cons_append]
    have hx := readHex_hexDigitsBE 8 c.toNat rest
      (by simpa using charToNat_lt c)
    simp [hx, Char.ofNat_toNat]

theorem pyQuote_cases (s : List Char) : pyQuote s = '\'' ∨ pyQuote s = '"' := by
  unfold pyQuote
  split <;> simp

theorem parseStrBody_escapeChars (printable : Char → Bool) {q : Char}
    (hq : q = '\'' ∨ q = '"') (s rest : List Char) :
    parseStrBody q (escapeChars printable q s ++ (q :: rest)) = some (s, rest) := by
  induction s with
  | nil => simpa [escapeChars] using parseStrBody_close q rest
  | cons c cs ih =>
    simp only [escapeChars, List.append_assoc]
    rw [parseStrBody_escChar printable hq c _, ih]
    rfl

theorem parsePyStr_reprStr (printable : Char → Bool) (s rest : List Char) :
    parsePyStr (reprStr printable s ++ rest) = some (s, rest) := by
  have hq := pyQuote_cases s
  have hshape : reprStr printable s ++ rest =
      pyQuote s :: (escapeChars printable (pyQuote s) s ++ (pyQuote s :: rest)) := by
    simp [reprStr]
  rw [hshape, parsePyStr]
  rw [if_pos hq]
  exact parseStrBody_escapeChars printable hq s rest

/-- Heads that cannot be mistaken for a digit (the delimiters `", "` and
`")"` that follow every item inside a repr-encoded tuple). -/
def headNotDigit (cs : List Char) : Prop := ∀ r ∈ cs.head?, r.isDigit = false

theorem natDigits_cons (n : Nat) :
    ∃ c t, natDigits n = c :: t ∧ c.isDigit = true := by
  cases h : natDigits n with
  | nil => exact absurd h (natDigits_ne_nil n)
  | cons c t =>
    exact ⟨c, t, rfl, natDigits_all_digit n c (by rw [h]; simp)⟩

theorem parsePyInt_reprInt (i : Int) {rest : List Char} (hrest : headNotDigit rest) :
    parsePyInt (reprInt i ++ rest) = some (i, rest) := by
  unfold reprInt
  split
  · next hneg =>
    obtain ⟨c, t, hct, hcd⟩ := natDigits_cons (-i).toNat
    rw [hct]
    simp only [List.cons_append, parsePyInt, if_pos rfl]
    rw [← List.cons_append, ← hct,
      spanDigits_append (natDigits_all_digit _) hrest, hct]
    dsimp only []
    rw [← hct, digitsToNat_natDigits, if_pos trivial]
    simp only [Option.some.injEq, Prod.mk.injEq]
    exact ⟨by omega, trivial⟩
  · next hneg =>
    obtain ⟨c, t, hct, hcd⟩ := natDigits_cons i.toNat
    have hcm : c ≠ '-' := by
      intro hc
      rw [hc] at hcd
      exact absurd hcd (by decide)
    rw [hct]
    simp only [List.cons_append, parsePyInt]
    rw [if_neg hcm, ← List.cons_append, ← hct,
      spanDigits_append (natDigits_all_digit _) hrest, hct]
    dsimp only []
    rw [← hct, digitsToNat_natDigits]
    simp only [Option.some.injEq, Prod.mk.injEq]
    exact ⟨by omega, trivial⟩

theorem digit_not_special {c : Char} (h : c.isDigit = true) :
    c ≠ 'N' ∧ c ≠ '\'' ∧ c ≠ '"' := by
  refine ⟨?_, ?_, ?_⟩ <;> intro hc <;> rw [hc] at h <;> exact absurd h (by decide)

theorem parsePyItem_repr (printable : Char → Bool) (v : PyVal) {rest : List Char}
    (hrest : headNotDigit rest) :
    parsePyItem (reprPyVal printable v ++ rest) = some (v, rest) := by
  cases v with
  | pyNone =>
    show parsePyItem ('N' :: 'o' :: 'n' :: 'e' :: rest) = _
    rw [parsePyItem]
    dsimp only []
    rw [if_pos rfl]
    rw [show ('N' :: 'o' :: 'n' :: 'e' :: rest) = ("None".data ++ rest) from rfl,
      stripLiteral_append]
    rfl
  | pyInt i =>
    obtain ⟨c, t, hct, hc⟩ :
        ∃ c t, reprInt i = c :: t ∧ (c = '-' ∨ c.isDigit = true) := by
      unfold reprInt
      split
      · exact ⟨'-', _, rfl, Or.inl rfl⟩
      · obtain ⟨c, t, hct, hcd⟩ := natDigits_cons i.toNat
        exact ⟨c, t, hct, Or.inr hcd⟩
    have hcN : c ≠ 'N' ∧ ¬(c = '\'' ∨ c = '"') := by
      rcases hc with rfl | hdig
      · exact ⟨by decide, by decide⟩
      · obtain ⟨hN, hq1, hq2⟩ := digit_not_special hdig
        exact ⟨hN, by simp [hq1, hq2]⟩
    show parsePyItem (reprInt i ++ rest) = _
    rw [hct, List.cons_append, parsePyItem]
    dsimp only []
    rw [if_neg hcN.1, if_neg hcN.2, ← List.cons_append, ← hct,
      parsePyInt_reprInt i hrest]
    rfl
  | pyStr s =>
    have hq := pyQuote_cases s
    have hqN : pyQuote s ≠ 'N' := by rcases hq with h | h <;> rw [h] <;> decide
    show parsePyItem (reprStr printable s ++ rest) = _
    have hshape : reprStr printable s ++ rest =
        pyQuote s :: (escapeChars printable (pyQuote s) s ++ (pyQuote s :: rest)) := by
      simp [reprStr]
    rw [hshape, parsePyItem]
    dsimp only []
    rw [if_neg hqN, if_pos hq, ← hshape, parsePyStr_reprStr]
    rfl

theorem parsePyTuple3_repr (printable : Char → Bool) (t : PyVal × PyVal × PyVal) :
    parsePyTuple3 (reprTuple3 printable t) = some t := by
  obtain ⟨v1, v2, v3⟩ := t
  have hcomma : headNotDigit (',' :: ' ' ::
      (reprPyVal printable v2 ++ ',' :: ' ' :: (reprPyVal printable v3 ++ [')']))) := by
    intro r hr
    simp at hr
    subst hr
    decide
  have hcomma2 : headNotDigit (',' :: ' ' :: (reprPyVal printable v3 ++ [')'])) := by
    intro r hr
    simp at hr
    subst hr
    decide
  have hclose : headNotDigit [')'] := by
    intro r hr
    simp at hr
    subst hr
    decide
  simp [reprTuple3, parsePyTuple3, stripLiteral,
    parsePyItem_repr printable v1 hcomma,
    parsePyItem_repr printable v2 hcomma2,
    parsePyItem_repr printable v3 hclose]

theorem decode_encode (t : Option Int × Option String × String) :
    decodeIdentifierTuple (pyOfOptInt t.1, pyOfOptStr t.2.1, .pyStr t.2.2.data) =
      some t := by
  obtain ⟨p, iname, ref⟩ := t
  cases p <;> cases iname <;> rfl

/-! ### Characterisations of the link scan

The per-link decision taken by the scan loop, factored out so the scan
can be described by a single search over the link list. -/

/-- For an explicit interface request `i` on `a->b`, the node the loop
would break at on link `l`: the endpoint on the `a` side (the `intf1`
orientation being checked first, and the mirrored orientation only in the
`elif`), provided that side's interface is named exactly `i`. -/
def aSideWithIface (a b i : String) (l : Link) : Option MNode :=
  if l.intf1.node.name = a ∧ l.intf2.node.name = b then
    if l.intf1.name = i then some l.intf1.node else none
  else if l.intf1.node.name = b ∧ l.intf2.node.name = a then
    if l.intf2.name = i then some l.intf2.node else none
  else none

/-- Without an explicit interface request, the candidate a structural
match on link `l` installs: the `a`-side `(interface name, node)`. -/
def aSideEndpoint (a : String) (b : Option String) (l : Link) :
    Option (String × MNode) :=
  if l.intf1.node.name = a ∧ some l.intf2.node.name = b then
    some (l.intf1.name, l.intf1.node)
  else if some l.intf1.node.name = b ∧ l.intf2.node.name = a then
    some (l.intf2.name, l.intf2.node)
  else none

/-- The last link (in enumeration order) that structurally matches,
together with its `a`-side endpoint. -/
def lastASideMatch (a : String) (b : Option String) : List Link → Option (String × MNode)
  | [] => none
  | l :: ls =>
    match lastASideMatch a b ls with
    | some x => some x
    | none => aSideEndpoint a b l

/-- A link between nodes named `a` and `b` (in either orientation) one of
whose two endpoint interfaces is named `i` — the spec's reading of
"a link between `a` and `b` carries an endpoint interface named `i`". -/
def linkBetweenWithIface (net : Mininet) (a b i : String) : Prop :=
  ∃ l ∈ net.links,
    ((l.intf1.node.name = a ∧ l.intf2.node.name = b) ∨
      (l.intf1.node.name = b ∧ l.intf2.node.name = a)) ∧
    (l.intf1.name = i ∨ l.intf2.name = i)

instance (net : Mininet) (a b i : String) :
    Decidable (linkBetweenWithIface net a b i) := by
  unfold linkBetweenWithIface
  infer_instance

theorem scanLinks_explicit (a b i : String) (hi : i ≠ "") (links : List Link) :
    scanLinks a (some b) (some i) links (none, none) =
      match links.findSome? (aSideWithIface a b i) with
      | some nd => (some i, some nd)
      | none => (none, none) := by
  induction links with
  | nil => rfl
  | cons l ls ih =>
    have htr : isTruthy (some i) = true := by simpa [isTruthy] using hi
    rw [List.findSome?_cons]
    rw [scanLinks]
    split_ifs with h1 h2 h3 h4
    · -- intf1 oriented, break: interface matches
      have ha : l.intf1.node.name = a := h1.1
      have hb : l.intf2.node.name = b := by simpa using h1.2
      have hname : l.intf1.name = i := by simpa [eq_comm] using h2
      simp [aSideWithIface, ha, hb, hname]
    · -- intf1 oriented, mismatch: candidate reset
      have ha : l.intf1.node.name = a := h1.1
      have hb : l.intf2.node.name = b := by simpa using h1.2
      have hname : ¬ l.intf1.name = i := fun hc => h2 (by rw [hc])
      rw [ih]
      simp [aSideWithIface, ha, hb, hname]
    · -- mirrored orientation, break
      have hb : l.intf1.node.name = b := by simpa using h3.1
      have ha : l.intf2.node.name = a := h3.2
      have hname : l.intf2.name = i := by simpa [eq_comm] using h4
      have hba : ¬(b = a ∧ a = b) := by
        rw [hb, ha] at h1
        intro hc
        exact h1 ⟨hc.1, by simp [hc.2]⟩
      simp [aSideWithIface, ha, hb, hba, hname]
    · -- mirrored orientation, mismatch
      have hb : l.intf1.node.name = b := by simpa using h3.1
      have ha : l.intf2.node.name = a := h3.2
      have hname : ¬ l.intf2.name = i := fun hc => h4 (by rw [hc])
      have hba : ¬(b = a ∧ a = b) := by
        rw [hb, ha] at h1
        intro hc
        exact h1 ⟨hc.1, by simp [hc.2]⟩
      rw [ih]
      simp [aSideWithIface, ha, hb, hba, hname]
    · -- no structural match
      have h1' : ¬(l.intf1.node.name = a ∧ l.intf2.node.name = b) := by
        intro hc
        exact h1 ⟨hc.1, by simp [hc.2]⟩
      have h3' : ¬(l.intf1.node.name = b ∧ l.intf2.node.name = a) := by
        intro hc
        exact h3 ⟨by simp [hc.1], hc.2⟩
      rw [ih]
      simp [aSideWithIface, h1', h3']

theorem scanLinks_falsy {expl : Option String} (hexpl : isTruthy expl = false)
    (a : String) (b : Option String) (links : List Link)
    (cand : Option String × Option MNode) :
    scanLinks a b expl links cand =
      match lastASideMatch a b links with
      | some x => (some x.1, some x.2)
      | none => cand := by
  induction links generalizing cand with
  | nil => rfl
  | cons l ls ih =>
    rw [scanLinks, lastASideMatch, hexpl]
    simp only [Bool.false_eq_true, if_false]
    split_ifs with h1 h3
    · rw [ih]
      have hside : aSideEndpoint a b l = some (l.intf1.name, l.intf1.node) := by
        unfold aSideEndpoint
        rw [if_pos h1]
      rw [hside]
      cases lastASideMatch a b ls <;> rfl
    · rw [ih]
      have hside : aSideEndpoint a b l = some (l.intf2.name, l.intf2.node) := by
        unfold aSideEndpoint
        rw [if_neg h1, if_pos h3]
      rw [hside]
      cases lastASideMatch a b ls <;> rfl
    · rw [ih]
      have hside : aSideEndpoint a b l = none := by
        unfold aSideEndpoint
        rw [if_neg h1, if_neg h3]
      rw [hside]
      cases lastASideMatch a b ls <;> rfl

theorem scanLinks_none_b (a : String) (expl : Option String) (links : List Link)
    (cand : Option String × Option MNode) :
    scanLinks a none expl links cand = cand := by
  induction links with
  | nil => rfl
  | cons l ls ih =>
    rw [scanLinks]
    have hc1 : ¬(l.intf1.node.name = a ∧ some l.intf2.node.name = (none : Option String)) := by
      simp
    have hc2 : ¬(some l.intf1.node.name = (none : Option String) ∧ l.intf2.node.name = a) := by
      simp
    rw [if_neg hc1, if_neg hc2]
    exact ih

/-! ### Claim theorems -/

/-- C3: for a bare-name reference `h` (matching neither link pattern): if
the topology's host set contains a host named `h`, resolution returns
`(processHandle = that host's process id, interfaceName = absent,
originalRef = h)`; if no host is named `h`, it returns
`(absent, absent, h)` without raising (the embedding is a total
function). -/
theorem claim3_bare_name_resolution (net : Mininet) (ref h : String)
    (hp : parseIdentifier ref = (h, none, none)) :
    ((∃ host ∈ net.hosts, host.name = h) →
      ∃ host ∈ net.hosts, host.name = h ∧
        get_mininet_agnostic_identifiers_from_identifier_string net ref =
          (some host.pid, none, ref)) ∧
    ((¬ ∃ host ∈ net.hosts, host.name = h) →
      get_mininet_agnostic_identifiers_from_identifier_string net ref =
        (none, none, ref)) := by
  constructor
  · rintro ⟨host0, hmem0, hname0⟩
    have hsome : (net.hosts.find? (fun node => node.name = h)).isSome := by
      rw [List.find?_isSome]
      exact ⟨host0, hmem0, by simpa using hname0⟩
    obtain ⟨host, hfind⟩ := Option.isSome_iff_exists.mp hsome
    have hhostmem : host ∈ net.hosts := List.mem_of_find?_eq_some hfind
    have hhostname : host.name = h := by simpa using List.find?_some hfind
    refine ⟨host, hhostmem, hhostname, ?_⟩
    unfold get_mininet_agnostic_identifiers_from_identifier_string
      get_node_and_interface_name_from_identifier_string
    dsimp only []
    rw [hp]
    dsimp only []
    unfold get_node_and_interface_name_core
    rw [hfind]
    rfl
  · intro hno
    have hnone : net.hosts.find? (fun node => node.name = h) = none := by
      rw [List.find?_eq_none]
      intro x hx
      simp only [decide_eq_true_eq]
      exact fun hc => hno ⟨x, hx, hc⟩
    unfold get_mininet_agnostic_identifiers_from_identifier_string
      get_node_and_interface_name_from_identifier_string
    dsimp only []
    rw [hp]
    dsimp only []
    unfold get_node_and_interface_name_core
    rw [hnone, scanLinks_none_b]
    rfl

/-- Witness for C3 at a concrete topology and reference. -/
theorem claim3_bare_name_resolution_witness :
    parseIdentifier "h1" = ("h1", none, none) ∧
    ((∃ host ∈ (Mininet.mk [MNode.mk "h1" 41] []).hosts, host.name = "h1") →
      ∃ host ∈ (Mininet.mk [MNode.mk "h1" 41] []).hosts, host.name = "h1" ∧
        get_mininet_agnostic_identifiers_from_identifier_string
          (Mininet.mk [MNode.mk "h1" 41] []) "h1" = (some host.pid, none, "h1")) ∧
    ((¬ ∃ host ∈ (Mininet.mk [MNode.mk "h1" 41] []).hosts, host.name = "h1") →
      get_mininet_agnostic_identifiers_from_identifier_string
        (Mininet.mk [MNode.mk "h1" 41] []) "h1" = (none, none, "h1")) :=
  ⟨by decide,
    claim3_bare_name_resolution (Mininet.mk [MNode.mk "h1" 41] []) "h1" "h1"
      (by decide)⟩

/-- C9: for a reference in explicit-link syntax whose captured interface
name is the empty string (`"a->b:"`), the resolver behaves exactly as if
no explicit interface had been requested — the empty name is falsy in the
`if explicit_name:` guards, so resolution equals the implicit-link
resolution for `a->b` (returning the interface of a structurally matching
link rather than failing because no interface is named `""`). -/
theorem claim9_empty_explicit_interface (net : Mininet) (ref a b : String)
    (hp : parseIdentifier ref = (a, some b, some "")) :
    get_node_and_interface_name_from_identifier_string net (some ref) =
      get_node_and_interface_name_core net a (some b) none := by
  unfold get_node_and_interface_name_from_identifier_string
  dsimp only []
  rw [hp]
  dsimp only []
  unfold get_node_and_interface_name_core
  dsimp only []
  rw [scanLinks_falsy (by decide : isTruthy (some "") = false),
    scanLinks_falsy (by decide : isTruthy (none : Option String) = false)]

/-- Witness for C9: `"h1->h2:"` parses as an explicit link with empty
interface name, and resolves like `"h1->h2"` on a one-link topology. -/
theorem claim9_empty_explicit_interface_witness :
    parseIdentifier "h1->h2:" = ("h1", some "h2", some "") ∧
    get_node_and_interface_name_from_identifier_string
        (Mininet.mk [] [Link.mk (Intf.mk "h1-eth0" (MNode.mk "h1" 7))
          (Intf.mk "h2-eth0" (MNode.mk "h2" 8))]) (some "h1->h2:") =
      get_node_and_interface_name_core
        (Mininet.mk [] [Link.mk (Intf.mk "h1-eth0" (MNode.mk "h1" 7))
          (Intf.mk "h2-eth0" (MNode.mk "h2" 8))]) "h1" (some "h2") none :=
  ⟨by decide,
    claim9_empty_explicit_interface
      (Mininet.mk [] [Link.mk (Intf.mk "h1-eth0" (MNode.mk "h1" 7))
        (Intf.mk "h2-eth0" (MNode.mk "h2" 8))]) "h1->h2:" "h1" "h2" (by decide)⟩

/-- C5: the `is_active` query of the controller starter (modelled as a
total function — the source only ever `poll`s before `recv`ing, so the
call never blocks): it returns `False` before `go` was called; after `go`
it returns `True` when no message is pending, leaving the state (in
particular the pipe) unchanged; on reading the done sentinel it flips the
flag, returns `False`, and every later call keeps returning `False`. -/
theorem claim5_is_active_protocol (s : ConfigFileFaultControllerStarter)
    (p : List String) (rest : List String) (n : Nat) :
    ((ConfigFileFaultControllerStarter.init p).is_active =
      (false, ConfigFileFaultControllerStarter.init p)) ∧
    (s.faults_are_active = false → s.is_active = (false, s)) ∧
    (s.recv_pipe_faults_to_mininet = [] → s.go.is_active = (true, s.go)) ∧
    (s.faults_are_active = true → s.recv_pipe_faults_to_mininet = [] →
      s.is_active = (true, s)) ∧
    (s.recv_pipe_faults_to_mininet = MESSAGE_INJECTION_DONE :: rest →
      s.go.is_active.1 = false ∧
      s.go.is_active.2.faults_are_active = false ∧
      s.go.is_active.2.recv_pipe_faults_to_mininet = rest) ∧
    (s.faults_are_active = false →
      ∀ b ∈ s.is_active_iter n, b = false) := by
  refine ⟨rfl, ?_, ?_, ?_, ?_, ?_⟩
  · intro hoff
    simp [ConfigFileFaultControllerStarter.is_active, hoff]
  · intro hpipe
    simp [ConfigFileFaultControllerStarter.is_active,
      ConfigFileFaultControllerStarter.go, hpipe]
  · intro hon hpipe
    simp [ConfigFileFaultControllerStarter.is_active, hon, hpipe]
  · intro hpipe
    simp [ConfigFileFaultControllerStarter.is_active,
      ConfigFileFaultControllerStarter.go, hpipe]
  · intro hoff
    induction n generalizing s with
    | zero => intro b hb; simp [ConfigFileFaultControllerStarter.is_active_iter] at hb
    | succ n ih =>
      intro b hb
      rw [ConfigFileFaultControllerStarter.is_active_iter] at hb
      have hstep : s.is_active = (false, s) := by
        simp [ConfigFileFaultControllerStarter.is_active, hoff]
      rw [hstep] at hb
      simp only [List.mem_cons] at hb
      rcases hb with rfl | hb
      · rfl
      · exact ih s hoff b hb

/-- Witness for C5 at a concrete state, pipe and iteration count. -/
theorem claim5_is_active_protocol_witness :
    ((ConfigFileFaultControllerStarter.mk true
        [MESSAGE_INJECTION_DONE] []).faults_are_active = true) ∧
    ((ConfigFileFaultControllerStarter.mk true
        [MESSAGE_INJECTION_DONE] []).recv_pipe_faults_to_mininet =
      MESSAGE_INJECTION_DONE :: []) ∧
    ((ConfigFileFaultControllerStarter.mk true [MESSAGE_INJECTION_DONE]
        []).go.is_active.1 = false) :=
  ⟨rfl, rfl,
    ((claim5_is_active_protocol
      (ConfigFileFaultControllerStarter.mk true [MESSAGE_INJECTION_DONE] [])
      [] [] 0).2.2.2.2.1 rfl).1⟩

/-- C10: after `go`, a pending message that is not the done sentinel is
consumed by `is_active` — it is removed from the pipe for good — while the
call returns `True` and the controller stays active. -/
theorem claim10_unexpected_message_consumed
    (s : ConfigFileFaultControllerStarter) (msg : String) (rest : List String)
    (hon : s.faults_are_active = true)
    (hpipe : s.recv_pipe_faults_to_mininet = msg :: rest)
    (hmsg : msg ≠ MESSAGE_INJECTION_DONE) :
    s.is_active = (true, { s with recv_pipe_faults_to_mininet := rest }) ∧
    s.is_active.2.faults_are_active = true ∧
    s.is_active.2.recv_pipe_faults_to_mininet = rest := by
  have hstep : s.is_active = (true, { s with recv_pipe_faults_to_mininet := rest }) := by
    simp [ConfigFileFaultControllerStarter.is_active, hon, hpipe, hmsg]
  exact ⟨hstep, by rw [hstep]; exact hon, by rw [hstep]⟩

/-- Witness for C10: a stray `"m_write_logs"` in the pipe is discarded and
the controller still reports active. -/
theorem claim10_unexpected_message_consumed_witness :
    ((ConfigFileFaultControllerStarter.mk true [MESSAGE_WRITE_LOGS] []
        ).faults_are_active = true) ∧
    ((ConfigFileFaultControllerStarter.mk true [MESSAGE_WRITE_LOGS] []
        ).recv_pipe_faults_to_mininet = MESSAGE_WRITE_LOGS :: []) ∧
    MESSAGE_WRITE_LOGS ≠ MESSAGE_INJECTION_DONE ∧
    (ConfigFileFaultControllerStarter.mk true [MESSAGE_WRITE_LOGS] []
        ).is_active =
      (true, ConfigFileFaultControllerStarter.mk true [] []) :=
  ⟨rfl, rfl, by decide,
    (claim10_unexpected_message_consumed
      (ConfigFileFaultControllerStarter.mk true [MESSAGE_WRITE_LOGS] [])
      MESSAGE_WRITE_LOGS [] rfl rfl (by decide)).1⟩

/-- C4: in the injector's `go()` sequence, for either configuration
(logger present or not): the fan-in join over all fault tasks strictly
precedes sending `done`; sending `done` strictly precedes every logger
teardown step (logger stop, awaiting the logger task, awaiting the
listener task); and the teardown steps occur in the trace exactly when a
logger is configured. -/
theorem claim4_done_ordering (hasLogger : Bool) :
    GoEvent.joinFaultTasks ∈ goTrace hasLogger ∧
    GoEvent.sendDone ∈ goTrace hasLogger ∧
    (goTrace hasLogger).indexOf GoEvent.joinFaultTasks <
      (goTrace hasLogger).indexOf GoEvent.sendDone ∧
    (goTrace hasLogger).indexOf GoEvent.sendDone <
      (goTrace hasLogger).indexOf GoEvent.stopLogger ∧
    (goTrace hasLogger).indexOf GoEvent.sendDone <
      (goTrace hasLogger).indexOf GoEvent.awaitLogTask ∧
    (goTrace hasLogger).indexOf GoEvent.sendDone <
      (goTrace hasLogger).indexOf GoEvent.awaitLogListener ∧
    (GoEvent.stopLogger ∈ goTrace hasLogger ↔ hasLogger = true) ∧
    (GoEvent.awaitLogTask ∈ goTrace hasLogger ↔ hasLogger = true) ∧
    (GoEvent.awaitLogListener ∈ goTrace hasLogger ↔ hasLogger = true) := by
  cases hasLogger <;> decide

/-- C8: `_get_target_arguments_from_fault_dict` never raises (it is a
total function); the protocol it returns is always drawn from the
whitelist, an unrecognized protocol string is logged and replaced by
`'any'`, and an absent `target_traffic` section yields `'any'` with
absent ports; the unrecognized string never reaches a constructed fault
unit. -/
theorem claim8_protocol_coercion (tt : Option TrafficDict) :
    ((get_target_arguments_from_fault_dict tt).1.1 ∈ allowedProtocols) ∧
    (∀ t q, tt = some t → t.protocol = some q → q ∉ allowedProtocols →
      (get_target_arguments_from_fault_dict tt).1.1 = "any" ∧
      (get_target_arguments_from_fault_dict tt).2 = true) ∧
    (tt = none →
      get_target_arguments_from_fault_dict tt = (("any", none, none), false)) ∧
    (∀ freshTag d, d.target_traffic = tt →
      ∀ inj ∈ faultsFromEntry freshTag d, ∀ pr, inj.protocol = some pr →
        pr ∈ allowedProtocols) := by
  refine ⟨?_, ?_, ?_, ?_⟩
  · cases tt with
    | none => simp [get_target_arguments_from_fault_dict, allowedProtocols]
    | some t =>
      unfold get_target_arguments_from_fault_dict
      dsimp only []
      split_ifs with h
      · exact h
      · simp [allowedProtocols]
  · intro t q htt hq hnot
    subst htt
    unfold get_target_arguments_from_fault_dict
    dsimp only []
    rw [hq]
    simp only [Option.getD_some]
    rw [if_neg hnot]
    exact ⟨rfl, rfl⟩
  · intro htt
    subst htt
    rfl
  · intro freshTag d htt inj hinj pr hpr
    have hany : (get_target_arguments_from_fault_dict d.target_traffic).1.1 ∈
        allowedProtocols := by
      rw [htt]
      cases tt with
      | none => simp [get_target_arguments_from_fault_dict, allowedProtocols]
      | some t =>
        unfold get_target_arguments_from_fault_dict
        dsimp only []
        split_ifs with h
        · exact h
        · simp [allowedProtocols]
    unfold faultsFromEntry at hinj
    cases hty : d.type_val with
    | none => rw [hty] at hinj; simp at hinj
    | some tv =>
      rw [hty] at hinj
      dsimp only [] at hinj
      cases hlink : matchTypeRegex "link_fault:" tv with
      | some kind =>
        rw [hlink] at hinj
        simp only [List.mem_map] at hinj
        obtain ⟨idt, _, hinj⟩ := hinj
        subst hinj
        simp only [Injector.protocol, Option.some.injEq] at hpr
        rw [← hpr]
        exact hany
      | none =>
        rw [hlink] at hinj
        cases hnode : matchTypeRegex "node_fault:" tv with
        | some kind =>
          rw [hnode] at hinj
          simp only [List.mem_map] at hinj
          obtain ⟨idt, _, hinj⟩ := hinj
          subst hinj
          simp [Injector.protocol] at hpr
        | none =>
          rw [hnode] at hinj
          simp at hinj

/-- Witness for C8: an entry with protocol `"SCTP"` is coerced to
`"any"`, the error is logged, and the constructed fault unit carries
`"any"`. -/
theorem claim8_protocol_coercion_witness :
    (some (TrafficDict.mk (some "SCTP") none none) =
      some (TrafficDict.mk (some "SCTP") none none)) ∧
    ((TrafficDict.mk (some "SCTP") none none).protocol = some "SCTP") ∧
    ("SCTP" ∉ allowedProtocols) ∧
    (get_target_arguments_from_fault_dict
        (some (TrafficDict.mk (some "SCTP") none none))).1.1 = "any" ∧
    (get_target_arguments_from_fault_dict
        (some (TrafficDict.mk (some "SCTP") none none))).2 = true :=
  ⟨rfl, rfl, by decide,
    ((claim8_protocol_coercion
        (some (TrafficDict.mk (some "SCTP") none none))).2.1
      (TrafficDict.mk (some "SCTP") none none) "SCTP" rfl rfl (by decide)).1,
    ((claim8_protocol_coercion
        (some (TrafficDict.mk (some "SCTP") none none))).2.1
      (TrafficDict.mk (some "SCTP") none none) "SCTP" rfl rfl (by decide)).2⟩

theorem stripLiteral_head {p : Char} {ps cs rest : List Char}
    (h : stripLiteral (p :: ps) cs = some rest) :
    ∃ cs', cs = p :: cs' := by
  cases cs with
  | nil => simp [stripLiteral] at h
  | cons c cs' =>
    by_cases hc : c = p
    · exact ⟨cs', by rw [hc]⟩
    · simp [stripLiteral, hc] at h

theorem matchTypeRegex_link_node_disjoint {tv k k' : String}
    (hl : matchTypeRegex "link_fault:" tv = some k)
    (hn : matchTypeRegex "node_fault:" tv = some k') : False := by
  unfold matchTypeRegex at hl hn
  cases hsl : stripLiteral "link_fault:".data tv.data with
  | none => rw [hsl] at hl; exact absurd hl (by simp)
  | some r1 =>
    cases hsn : stripLiteral "node_fault:".data tv.data with
    | none => rw [hsn] at hn; exact absurd hn (by simp)
    | some r2 =>
      obtain ⟨cs1, hcs1⟩ := stripLiteral_head hsl
      obtain ⟨cs2, hcs2⟩ := stripLiteral_head hsn
      rw [hcs1] at hcs2
      exact absurd (List.head_eq_of_cons_eq hcs2) (by decide)

/-- C7: a fault entry whose `type` matches `link_fault:<kind>` or
`node_fault:<kind>` and which lists `N` identifiers expands to exactly
`N` fault units, the `i`-th tagged `"<tag>@<originalRef_i>"` (where the
tag defaults to the freshly generated token when absent). -/
theorem claim7_fault_expansion (freshTag : String) (d : FaultEntryDict)
    (tv kind : String) (htv : d.type_val = some tv)
    (hmatch : matchTypeRegex "link_fault:" tv = some kind ∨
      matchTypeRegex "node_fault:" tv = some kind) :
    (faultsFromEntry freshTag d).length = d.identifiers.length ∧
    ∀ i (hi : i < (faultsFromEntry freshTag d).length)
      (hi2 : i < d.identifiers.length),
      ((faultsFromEntry freshTag d).get ⟨i, hi⟩).tag =
        (d.tag.getD freshTag) ++ "@" ++ ((d.identifiers.get ⟨i, hi2⟩).2.2) := by
  rcases hmatch with hlink | hnode
  · have hexp : faultsFromEntry freshTag d = d.identifiers.map fun idt =>
        Injector.link idt.2.1 idt.1 ((d.tag.getD freshTag) ++ "@" ++ idt.2.2)
          (get_target_arguments_from_fault_dict d.target_traffic).1.1
          (get_target_arguments_from_fault_dict d.target_traffic).1.2.2
          (get_target_arguments_from_fault_dict d.target_traffic).1.2.1
          kind (d.pattern.getD "persistent") d.type_args d.pattern_args
          d.pre_injection_time d.injection_time d.post_injection_time := by
      unfold faultsFromEntry
      rw [htv]
      dsimp only []
      rw [hlink]
    rw [hexp]
    refine ⟨by simp, ?_⟩
    intro i hi hi2
    simp [Injector.tag]
  · have hlinknone : matchTypeRegex "link_fault:" tv = none := by
      cases hl : matchTypeRegex "link_fault:" tv with
      | none => rfl
      | some k => exact absurd (matchTypeRegex_link_node_disjoint hl hnode) not_false
    have hexp : faultsFromEntry freshTag d = d.identifiers.map fun idt =>
        Injector.node idt.1 kind ((d.tag.getD freshTag) ++ "@" ++ idt.2.2)
          d.pre_injection_time d.injection_time d.post_injection_time
          (d.pattern.getD "persistent") d.type_args d.pattern_args := by
      unfold faultsFromEntry
      rw [htv]
      dsimp only []
      rw [hlinknone, hnode]
    rw [hexp]
    refine ⟨by simp, ?_⟩
    intro i hi hi2
    simp [Injector.tag]

/-- Witness for C7: a `link_fault:delay` entry with two identifiers
expands to two units with the expected tags. -/
theorem claim7_fault_expansion_witness :
    ((FaultEntryDict.mk (some "link_fault:delay")
        [(some 3, some "h1-eth0", "h1->h2"), (none, none, "h3")]
        (some "t") none none none none none none none).type_val =
      some "link_fault:delay") ∧
    (matchTypeRegex "link_fault:" "link_fault:delay" = some "delay" ∨
      matchTypeRegex "node_fault:" "link_fault:delay" = some "delay") ∧
    (faultsFromEntry "fresh" (FaultEntryDict.mk (some "link_fault:delay")
        [(some 3, some "h1-eth0", "h1->h2"), (none, none, "h3")]
        (some "t") none none none none none none none)).length = 2 :=
  ⟨rfl, Or.inl (by decide),
    by
      rw [(claim7_fault_expansion "fresh"
        (FaultEntryDict.mk (some "link_fault:delay")
          [(some 3, some "h1-eth0", "h1->h2"), (none, none, "h3")]
          (some "t") none none none none none none none)
        "link_fault:delay" "delay" rfl (Or.inl (by decide))).1]
      rfl⟩

/-- C6: serialising a resolved identifier triple with Python's `repr` of
the tuple and parsing it back with `literal_eval` on the receiving side
reproduces the same `(processHandle, interfaceName, originalRef)` triple,
for every triple and every Unicode printability table. -/
theorem claim6_transfer_roundtrip (printable : Char → Bool)
    (t : Option Int × Option String × String) :
    (parsePyTuple3 (reprIdentifierTuple printable t)).bind
      decodeIdentifierTuple = some t := by
  rw [reprIdentifierTuple, parsePyTuple3_repr]
  simpa using decode_encode t

/-! ### C1 and C2: explicit and implicit link resolution -/

/-- Topology refuting C1 as stated: one link between `a` and `b`; the
requested interface name `i0` is carried by the `b`-side endpoint, not
the `a`-side one. -/
def netClaim1 : Mininet :=
  Mininet.mk []
    [Link.mk (Intf.mk "ax" (MNode.mk "a" 1)) (Intf.mk "i0" (MNode.mk "b" 2))]

/-- C1 counterexample: `"a->b:i0"` is in explicit-link syntax and a link
between `a` and `b` carries an endpoint interface named `"i0"` (its
`b`-side), yet resolution returns the absent identifier — so the claim's
dichotomy "interface equals `i` exactly, or absent *when no link between
`a` and `b` carries an endpoint interface named `i`*" is false on this
input: the scan compares `i` only against the endpoint on the `a` side. -/
theorem claim1_counterexample :
    parseIdentifier "a->b:i0" = ("a", some "b", some "i0") ∧
    ("i0" : String) ≠ "" ∧
    linkBetweenWithIface netClaim1 "a" "b" "i0" ∧
    get_mininet_agnostic_identifiers_from_identifier_string netClaim1 "a->b:i0" =
      (none, none, "a->b:i0") := by
  refine ⟨by decide, by decide, by decide, by decide⟩

theorem resolve_explicit_core (net : Mininet) (ref a b i : String)
    (hp : parseIdentifier ref = (a, some b, some i)) :
    get_node_and_interface_name_from_identifier_string net (some ref) =
      afterScan (scanLinks a (some b) (some i) net.links (none, none)) := by
  unfold get_node_and_interface_name_from_identifier_string
  dsimp only []
  rw [hp]
  dsimp only []
  unfold get_node_and_interface_name_core
  cases net.hosts.find? (fun node => node.name = a) <;> rfl

/-- C1 (amended): for every explicit link reference `a->b:i` with `i`
nonempty, resolution returns interface `i` together with the pid of the
`a`-side node of the *first link whose `a`-side endpoint is named `i`*
(the `intf1` orientation checked before the mirrored one, which the
`elif` shadows), and the absent identifier exactly when no link has its
`a`-side endpoint named `i`; the returned interface name is never
different from `i`. -/
theorem claim1_amended (net : Mininet) (ref a b i : String)
    (hp : parseIdentifier ref = (a, some b, some i)) (hi : i ≠ "") :
    (∀ nd, net.links.findSome? (aSideWithIface a b i) = some nd →
      get_mininet_agnostic_identifiers_from_identifier_string net ref =
        (some nd.pid, some i, ref)) ∧
    (net.links.findSome? (aSideWithIface a b i) = none →
      get_mininet_agnostic_identifiers_from_identifier_string net ref =
        (none, none, ref)) ∧
    ((get_mininet_agnostic_identifiers_from_identifier_string net ref).2.1 =
        some i ∨
      (get_mininet_agnostic_identifiers_from_identifier_string net ref).2.1 =
        none) := by
  have hcore := resolve_explicit_core net ref a b i hp
  have hscan := scanLinks_explicit a b i hi net.links
  have hshape : ∀ nd', get_node_and_interface_name_from_identifier_string net
      (some ref) = nd' →
      get_mininet_agnostic_identifiers_from_identifier_string net ref =
        ((get_passable_identifiers_from_node_and_interface_name nd'.1 nd'.2).1,
         (get_passable_identifiers_from_node_and_interface_name nd'.1 nd'.2).2,
         ref) := by
    intro nd' hnd
    unfold get_mininet_agnostic_identifiers_from_identifier_string
    rw [hnd]
  refine ⟨?_, ?_, ?_⟩
  · intro nd hfind
    rw [hfind] at hscan
    have := hshape (some i, some nd) (by rw [hcore, hscan]; rfl)
    simpa [get_passable_identifiers_from_node_and_interface_name] using this
  · intro hfind
    rw [hfind] at hscan
    have := hshape (none, none) (by rw [hcore, hscan]; rfl)
    simpa [get_passable_identifiers_from_node_and_interface_name] using this
  · cases hfind : net.links.findSome? (aSideWithIface a b i) with
    | some nd =>
      rw [hfind] at hscan
      have := hshape (some i, some nd) (by rw [hcore, hscan]; rfl)
      rw [this]
      exact Or.inl rfl
    | none =>
      rw [hfind] at hscan
      have := hshape (none, none) (by rw [hcore, hscan]; rfl)
      rw [this]
      exact Or.inr rfl

/-- Witness for the amended C1 on a two-link topology where only the
second link's `a`-side endpoint is named `i0`. -/
theorem claim1_amended_witness :
    parseIdentifier "a->b:i0" = ("a", some "b", some "i0") ∧
    ("i0" : String) ≠ "" ∧
    (Mininet.mk []
        [Link.mk (Intf.mk "ax" (MNode.mk "a" 1)) (Intf.mk "i0" (MNode.mk "b" 2)),
         Link.mk (Intf.mk "i0" (MNode.mk "a" 1)) (Intf.mk "by" (MNode.mk "b" 2))]
      ).links.findSome? (aSideWithIface "a" "b" "i0") = some (MNode.mk "a" 1) ∧
    get_mininet_agnostic_identifiers_from_identifier_string
      (Mininet.mk []
        [Link.mk (Intf.mk "ax" (MNode.mk "a" 1)) (Intf.mk "i0" (MNode.mk "b" 2)),
         Link.mk (Intf.mk "i0" (MNode.mk "a" 1)) (Intf.mk "by" (MNode.mk "b" 2))])
      "a->b:i0" = (some 1, some "i0", "a->b:i0") :=
  ⟨by decide, by decide, by decide,
    (claim1_amended
      (Mininet.mk []
        [Link.mk (Intf.mk "ax" (MNode.mk "a" 1)) (Intf.mk "i0" (MNode.mk "b" 2)),
         Link.mk (Intf.mk "i0" (MNode.mk "a" 1)) (Intf.mk "by" (MNode.mk "b" 2))])
      "a->b:i0" "a" "b" "i0" (by decide) (by decide)).1
      (MNode.mk "a" 1) (by decide)⟩

/-- Structural match of a link against the unordered pair `{a, b}`. -/
def structuralMatch (a b : String) (l : Link) : Bool :=
  (l.intf1.node.name = a && l.intf2.node.name = b) ||
  (l.intf1.node.name = b && l.intf2.node.name = a)

/-- Topology refuting C2 as stated: two parallel links between `a` and
`b` with distinct interface names. -/
def netClaim2 : Mininet :=
  Mininet.mk []
    [Link.mk (Intf.mk "a-eth0" (MNode.mk "a" 1)) (Intf.mk "b-eth0" (MNode.mk "b" 2)),
     Link.mk (Intf.mk "a-eth1" (MNode.mk "a" 1)) (Intf.mk "b-eth1" (MNode.mk "b" 2))]

/-- C2 counterexample: with two parallel links between `a` and `b`, the
first structurally matching link is the `a-eth0`/`b-eth0` one, but
resolving the implicit reference `"a->b"` returns interface `"a-eth1"` —
an interface of the *second* link — because the scan loop has no `break`
in the no-explicit-interface case and each later structural match
overwrites the candidate.  The claim's "first structurally matching link
wins" is therefore false on this input. -/
theorem claim2_counterexample :
    parseIdentifier "a->b" = ("a", some "b", none) ∧
    netClaim2.links.find? (structuralMatch "a" "b") =
      some (Link.mk (Intf.mk "a-eth0" (MNode.mk "a" 1))
        (Intf.mk "b-eth0" (MNode.mk "b" 2))) ∧
    (get_mininet_agnostic_identifiers_from_identifier_string netClaim2 "a->b").2.1 =
      some "a-eth1" ∧
    ("a-eth1" : String) ≠ "a-eth0" ∧ ("a-eth1" : String) ≠ "b-eth0" := by
  refine ⟨by decide, by decide, by decide, by decide, by decide⟩

theorem resolve_implicit_core (net : Mininet) (ref a b : String)
    (hp : parseIdentifier ref = (a, some b, none)) :
    get_node_and_interface_name_from_identifier_string net (some ref) =
      afterScan (scanLinks a (some b) none net.links (none, none)) := by
  unfold get_node_and_interface_name_from_identifier_string
  dsimp only []
  rw [hp]
  dsimp only []
  unfold get_node_and_interface_name_core
  cases net.hosts.find? (fun node => node.name = a) <;> rfl

/-- C2 (amended): for an implicit link reference `a->b` resolution
returns the `a`-side interface and host of the *last* structurally
matching link in the topology's enumeration order (the loop keeps
overwriting its candidate and never breaks when no explicit interface
was requested), and the absent identifier when no link matches. -/
theorem claim2_amended (net : Mininet) (ref a b : String)
    (hp : parseIdentifier ref = (a, some b, none)) :
    (∀ x, lastASideMatch a (some b) net.links = some x →
      get_mininet_agnostic_identifiers_from_identifier_string net ref =
        (some x.2.pid, some x.1, ref)) ∧
    (lastASideMatch a (some b) net.links = none →
      get_mininet_agnostic_identifiers_from_identifier_string net ref =
        (none, none, ref)) := by
  have hcore := resolve_implicit_core net ref a b hp
  have hscan := scanLinks_falsy (by decide : isTruthy (none : Option String) = false)
    a (some b) net.links (none, none)
  have hshape : ∀ nd', get_node_and_interface_name_from_identifier_string net
      (some ref) = nd' →
      get_mininet_agnostic_identifiers_from_identifier_string net ref =
        ((get_passable_identifiers_from_node_and_interface_name nd'.1 nd'.2).1,
         (get_passable_identifiers_from_node_and_interface_name nd'.1 nd'.2).2,
         ref) := by
    intro nd' hnd
    unfold get_mininet_agnostic_identifiers_from_identifier_string
    rw [hnd]
  constructor
  · intro x hlast
    rw [hlast] at hscan
    have := hshape (some x.1, some x.2) (by rw [hcore, hscan]; rfl)
    simpa [get_passable_identifiers_from_node_and_interface_name] using this
  · intro hlast
    rw [hlast] at hscan
    have := hshape (none, none) (by rw [hcore, hscan]; rfl)
    simpa [get_passable_identifiers_from_node_and_interface_name] using this

/-- Witness for the amended C2 on the two-parallel-link topology: the
last structural match is the `a-eth1` link and resolution returns it. -/
theorem claim2_amended_witness :
    parseIdentifier "a->b" = ("a", some "b", none) ∧
    lastASideMatch "a" (some "b") netClaim2.links =
      some ("a-eth1", MNode.mk "a" 1) ∧
    get_mininet_agnostic_identifiers_from_identifier_string netClaim2 "a->b" =
      (some 1, some "a-eth1", "a->b") :=
  ⟨by decide, by decide,
    (claim2_amended netClaim2 "a->b" "a" "b" (by decide)).1
      ("a-eth1", MNode.mk "a" 1) (by decide)⟩

end ConfigFileFault
